import Mathlib

/-!
Shallow embedding of the aquatan-ble-classifier windowing and classification
code (src/window.py, src/classify.py) and proofs about it.

Modelling conventions:
* an observation row of the `room_log` table is a record of label, place,
  detector id, unix timestamp and proximity; proximity values are modelled
  as rationals (the Python code uses floats, the spec states the arithmetic
  at the mathematical level);
* a pandas groupby over a key sorts the distinct keys and, inside one group,
  keeps row order; we model it with `groupKeys` (sorted, deduplicated key
  list) and `groupOf` (the rows of one key, in row order);
* a Python dict is an insertion-ordered association list: updating an
  existing key keeps its position, a new key is appended at the end
  (`setField`, `setPred`);
* `sort_values("datetime")` sorts by the derived datetime column, which is
  a strictly monotone image of the integer timestamp, so we sort by the
  timestamp itself.  The pandas default sort kind is quicksort, whose order
  on tied keys is unspecified (pandas documents only mergesort/stable as
  stable); the model uses a stable insertion sort for executability, and the
  theorem for claim C5 shows that the output genuinely depends on the order
  chosen for tied timestamps, so this is a real degree of freedom of the
  code, not of the model;
* `df.rolling("{w}s", on="datetime")` yields one window per row; the window
  ending at row i contains the rows at positions ≤ i whose timestamp t
  satisfies t_i - t < w (pandas' default closed="right" interval (t_i-w, t_i]);
* assigning a dict to `result_df.loc[len(result_df)]` aligns the dict to the
  frame's columns (pandas builds `Series(value, index=self.obj.columns)`):
  extra keys are dropped, which `alignToHeader` models;
* exceptions are modelled with `Except`; `scipy.stats.boxcox` (called with
  `lmbda=None`) raises ValueError "Data must be positive." on any
  non-positive input value and ValueError "Data must not be constant." on a
  constant input array, and otherwise fits a lambda numerically; the numeric
  fit is an opaque parameter `fit` of the model, the raise conditions are
  modelled exactly.
-/

/-- Observation row as read from `room_log` / the fetched CSV files:
columns `label` (beacon label), `ble_id`, `place`, `detector`, `timestamp`,
`proxi` (src/window.py reads them from the csv produced by src/fetch.py). -/
structure Obs where
  label : String
  ble_id : Int
  place : String
  detector : String
  timestamp : Int
  proxi : ℚ
deriving DecidableEq, Repr

/-- The detector catalog `DETECTORS` of src/window.py lines 40-50 (identical
in src/classify.py lines 58-68). -/
def DETECTORS : List (String × String) :=
  [("8-302", "0"),
   ("8-302", "1"),
   ("8-303", "0"),
   ("8-303", "1"),
   ("8-320", "0"),
   ("8-320", "1"),
   ("8-322", "0"),
   ("8-322", "1"),
   ("8-417", "0")]

/-- `VALUE_IF_UNDETECTED` of src/window.py line 54. -/
def VALUE_IF_UNDETECTED : ℚ := 300

/-- `VALUE_IF_UNDETECTED_BOXCOX` of src/window.py line 55. -/
def VALUE_IF_UNDETECTED_BOXCOX : ℚ := 10

/-- The groupby key `(place, detector)` of an observation row. -/
def obsKey (o : Obs) : String × String := (o.place, o.detector)

/-- Lexicographic strict order on character lists by code point, used to
model the sorted key order of a pandas groupby. -/
def charListLt : List Char → List Char → Bool
  | [], [] => false
  | [], _ :: _ => true
  | _ :: _, [] => false
  | a :: as, b :: bs =>
    if a.toNat < b.toNat then true
    else if b.toNat < a.toNat then false
    else charListLt as bs

/-- Strict lexicographic order on strings by code point. -/
def strLt (a b : String) : Bool := charListLt a.data b.data

/-- Order on `(place, detector)` keys (pandas sorts group keys). -/
def keyLe (a b : String × String) : Bool :=
  strLt a.1 b.1 || (a.1 == b.1 && (strLt a.2 b.2 || a.2 == b.2))

/-- Order on `(label, ble_id)` keys (pandas sorts group keys). -/
def bleLe (a b : String × Int) : Bool :=
  strLt a.1 b.1 || (a.1 == b.1 && decide (a.2 ≤ b.2))

/-- Insert an element into a sorted list (helper of `sortWith`). -/
def insertSorted (le : α → α → Bool) (a : α) : List α → List α
  | [] => [a]
  | b :: bs => if le a b then a :: b :: bs else b :: insertSorted le a bs

/-- Insertion sort with a boolean comparison; executable stand-in for the
sorted key order a pandas groupby produces. -/
def sortWith (le : α → α → Bool) : List α → List α
  | [] => []
  | a :: as => insertSorted le a (sortWith le as)

/-- Distinct `(place, detector)` keys of a row list, in the sorted order a
pandas `groupby(["place", "detector"])` iterates them. -/
def groupKeys (rows : List Obs) : List (String × String) :=
  sortWith keyLe (rows.map obsKey).dedup

/-- The rows of one `(place, detector)` group, in row order. -/
def groupOf (k : String × String) (rows : List Obs) : List Obs :=
  rows.filter (fun o => decide (obsKey o = k))

/-- Maximum timestamp of a row list (`df["timestamp"].max()`); the code only
evaluates it on nonempty groups. -/
def maxTimestamp : List Obs → Int
  | [] => 0
  | o :: rest => rest.foldl (fun a r => max a r.timestamp) o.timestamp

/-- Arithmetic mean of the proximity values of a group
(`df["proxi"].mean()`, src/window.py line 111). -/
def simpleMean (g : List Obs) : ℚ :=
  (g.map (fun o => o.proxi)).sum / (g.length : ℚ)

/-- Recency weight of one observation (src/window.py line 105): weight 1 if
the temporal distance from the group's latest timestamp is at most
`time_window / 2`, else weight 0.5. -/
def obsWeight (time_window : Int) (latest : Int) (t : Int) : ℚ :=
  if ((latest - t : Int) : ℚ) ≤ (time_window : ℚ) / 2 then 1 else 1 / 2

/-- Weighted mean of a group's proximity values
(src/window.py lines 100-108): `(df["proxi"] * weights).sum() / weights.sum()`
with `latest = df["timestamp"].max()` taken over the group. -/
def weightedMean (time_window : Int) (g : List Obs) : ℚ :=
  (g.map (fun o => o.proxi * obsWeight time_window (maxTimestamp g) o.timestamp)).sum
    / (g.map (fun o => obsWeight time_window (maxTimestamp g) o.timestamp)).sum

/-- Aggregation policy selected by the `weighted_average` flag
(src/window.py lines 99-111). -/
def aggregate (weighted_average : Bool) (time_window : Int) (g : List Obs) : ℚ :=
  if weighted_average then weightedMean time_window g else simpleMean g

/-- Proximity fields of a feature record: an insertion-ordered association
list from `(place, detector)` to the aggregated value, modelling the
`f"{place}-{detector}"`-keyed entries of the Python record dict. -/
abbrev Fields := List ((String × String) × ℚ)

/-- Dict assignment `record[key] = v`: replace in place if the key exists,
append otherwise. -/
def setField (k : String × String) (v : ℚ) : Fields → Fields
  | [] => [(k, v)]
  | kv :: rest => if kv.1 = k then (k, v) :: rest else kv :: setField k v rest

/-- Dict lookup of a proximity field. -/
def getField (k : String × String) (l : Fields) : Option ℚ :=
  (l.find? (fun kv => decide (kv.1 = k))).map (fun kv => kv.2)

/-- Proximity part of `create_record` (src/window.py lines 95-112, identical
in src/classify.py lines 91-106): every catalog entry is first set to
`value_if_undetected`, then each `(place, detector)` group present in the
window overwrites (or, for a key outside the catalog, adds) its entry with
the aggregated value. -/
def createFields (weighted_average : Bool) (time_window : Int)
    (value_if_undetected : ℚ) (windowed : List Obs) : Fields :=
  (groupKeys windowed).foldl
    (fun acc k => setField k (aggregate weighted_average time_window (groupOf k windowed)) acc)
    (DETECTORS.map (fun d => (d, value_if_undetected)))

/-- Feature record as built by `create_record` of src/window.py: the
`label` and `ble_id` entries followed by the proximity fields. -/
structure RecordT where
  label : String
  ble_id : Int
  fields : Fields
deriving DecidableEq, Repr

/-- `create_record` of src/window.py lines 87-112. -/
def create_record (windowed : List Obs) (label : String) (ble_id : Int)
    (time_window : Int) (value_if_undetected : ℚ) (weighted_average : Bool) : RecordT :=
  { label := label
    ble_id := ble_id
    fields := createFields weighted_average time_window value_if_undetected windowed }

/-- Row alignment performed by `result_df.loc[len(result_df)] = record`
(src/window.py line 145): the dict is aligned to the frame's fixed columns
(`HEADER`, i.e. label, ble_id and one column per catalog entry), so keys
outside the catalog are dropped.  `create_record` always populates every
catalog key, so the `getD` default is never used. -/
def alignToHeader (r : RecordT) : RecordT :=
  { r with fields := DETECTORS.map (fun d => (d, (getField d r.fields).getD 0)) }

/-- `grouped_df.sort_values("datetime")` (src/window.py line 129): sort by
timestamp ascending.  The pandas default sort kind is quicksort, which does
not guarantee any particular order on tied timestamps; the model commits to
a stable insertion sort to stay executable (see the development of claim C5
for the observable consequences of the tie order). -/
def sortObs (rows : List Obs) : List Obs :=
  sortWith (fun a b => decide (a.timestamp ≤ b.timestamp)) rows

/-- The rolling window ending at the last row of a positional prefix of the
sorted rows: the rows of the prefix whose timestamp `t` satisfies
`t_last - t < time_window` (the pandas offset window `(t_last - w, t_last]`
with the default `closed="right"`). -/
def windowEnding (time_window : Int) (pre : List Obs) : List Obs :=
  match pre.getLast? with
  | none => []
  | some lastRow => pre.filter (fun o => decide (lastRow.timestamp - o.timestamp < time_window))

/-- The per-beacon loop body of `window_data` (src/window.py lines 129-145):
one rolling window per sorted row, the first `len(DETECTORS)` windows are
skipped by `islice` as warm-up, and every remaining window is turned into a
record and appended (aligned to the output columns) to the result. -/
def windowedGroup (time_window : Int) (value_if_undetected : ℚ)
    (weighted_average : Bool) (label : String) (ble_id : Int)
    (sortedRows : List Obs) : List RecordT :=
  ((List.range sortedRows.length).drop DETECTORS.length).map
    (fun i =>
      alignToHeader
        (create_record (windowEnding time_window (sortedRows.take (i + 1)))
          label ble_id time_window value_if_undetected weighted_average))

/-- Distinct `(label, ble_id)` keys of the input, in the sorted order of
`original_df.groupby(["label", "ble_id"])` (src/window.py line 126). -/
def groupPairs (rows : List Obs) : List (String × Int) :=
  sortWith bleLe (rows.map (fun o => (o.label, o.ble_id))).dedup

/-- The rows of one `(label, ble_id)` group, in row order. -/
def rowsOf (label : String) (ble_id : Int) (rows : List Obs) : List Obs :=
  rows.filter (fun o => decide (o.label = label ∧ o.ble_id = ble_id))

/-- The `ble_ids_filter` test of src/window.py line 127: a group is skipped
iff a filter list is given and the ble_id is not in it. -/
def keepBle (ble_ids_filter : Option (List Int)) (b : Int) : Bool :=
  match ble_ids_filter with
  | none => true
  | some l => l.contains b

/-- The grouping loop of `window_data` (src/window.py lines 126-145), as a
function of the observation rows. -/
def window_data_rows (time_window : Int) (value_if_undetected : ℚ)
    (weighted_average : Bool) (ble_ids_filter : Option (List Int))
    (rows : List Obs) : List RecordT :=
  (groupPairs rows).foldl
    (fun acc lb =>
      if keepBle ble_ids_filter lb.2 then
        acc ++ windowedGroup time_window value_if_undetected weighted_average
          lb.1 lb.2 (sortObs (rowsOf lb.1 lb.2 rows))
      else acc)
    []

/-- The caller-visible state of the input dataframe: its observation rows
and whether it carries the derived `datetime` column.  `window_data`
executes `original_df["datetime"] = pd.to_datetime(original_df["timestamp"],
unit="s")` (src/window.py line 123), an in-place column assignment on the
caller's object. -/
structure ObsFrame where
  rows : List Obs
  hasDatetimeCol : Bool
deriving DecidableEq, Repr

/-- `window_data` of src/window.py lines 115-147, returning both the list of
emitted records and the state of the input frame after the call (line 123
mutates the caller's dataframe by assigning the derived `datetime` column;
everything else reads the frame). -/
def window_data (original_df : ObsFrame) (time_window : Int)
    (value_if_undetected : ℚ) (weighted_average : Bool)
    (ble_ids_filter : Option (List Int)) : List RecordT × ObsFrame :=
  let df : ObsFrame := { original_df with hasDatetimeCol := true }
  (window_data_rows time_window value_if_undetected weighted_average ble_ids_filter df.rows,
   df)

/-- Test for `np.all(x == x[0])` on a nonempty value list (the constant-data
check of `scipy.stats.boxcox`). -/
def allSameValue : List ℚ → Bool
  | [] => true
  | y :: ys => ys.all (fun x => decide (x = y))

/-- Model of `scipy.stats.boxcox(x)` with `lmbda=None`: raises
ValueError "Data must be positive." when some value is non-positive and
ValueError "Data must not be constant." when the values are all equal
(hence in particular for a single value); otherwise it numerically fits a
lambda and transforms the data, which the model keeps opaque as the
parameter `fit` (the claims only depend on the raise conditions).  scipy
returns the empty input unchanged, a case unreachable from a pandas groupby
(groups are nonempty). -/
def scipyBoxcox (fit : List ℚ → List ℚ × ℚ) (xs : List ℚ) : Except String (List ℚ × ℚ) :=
  if xs.length = 0 then .ok (xs, 0)
  else if xs.any (fun x => decide (x ≤ 0)) then .error "Data must be positive."
  else if allSameValue xs then .error "Data must not be constant."
  else .ok (fit xs)

/-- Proximity values of one `(place, detector)` group, in row order
(`df["proxi"]` inside the groupby loop of `boxcox_transform`). -/
def groupProxis (k : String × String) (rows : List Obs) : List ℚ :=
  (groupOf k rows).map (fun o => o.proxi)

/-- `boxcox_df.loc[df.index, "proxi"] = transformed_proxi`
(src/window.py line 82): write the transformed values back to the rows of
the group, positionally, leaving all other rows untouched. -/
def writeBack (k : String × String) : List ℚ → List Obs → List Obs
  | _, [] => []
  | ys, r :: rs =>
    if obsKey r = k then
      match ys with
      | [] => r :: writeBack k [] rs
      | y :: yt => { r with proxi := y } :: writeBack k yt rs
    else r :: writeBack k ys rs

/-- The groupby loop of `boxcox_transform` (src/window.py lines 80-83): for
each `(place, detector)` group in key order, transform the group's proximity
values, write them back, and record the fitted lambda under the key
`f"{place}-{detector}"`.  A scipy ValueError propagates (there is no
exception handler), which aborts the whole batch. -/
def transformGroups (fit : List ℚ → List ℚ × ℚ) :
    List (String × String) → List Obs → Except String (List Obs × List (String × ℚ))
  | [], rows => .ok (rows, [])
  | k :: ks, rows =>
    match scipyBoxcox fit (groupProxis k rows) with
    | .error e => .error e
    | .ok (ys, lam) =>
      match transformGroups fit ks (writeBack k ys rows) with
      | .error e => .error e
      | .ok (rows2, lams) => .ok (rows2, (k.1 ++ "-" ++ k.2, lam) :: lams)

/-- `boxcox_transform` of src/window.py lines 75-84: the transform is fitted
per `(place, detector)` group over the entire dataset. -/
def boxcox_transform (fit : List ℚ → List ℚ × ℚ) (original_df : List Obs) :
    Except String (List Obs × List (String × ℚ)) :=
  transformGroups fit (groupKeys original_df) original_df

/-- The `__main__` pipeline of src/window.py lines 181-193 when `--boxcox`
is requested: `boxcox_transform` runs on the whole dataset first (an
uncaught ValueError aborts the run before any windowing), then the
transformed data is windowed with the Box-Cox sentinel value. -/
def window_main_boxcox (fit : List ℚ → List ℚ × ℚ) (original_df : ObsFrame)
    (time_window : Int) (weighted_average : Bool)
    (ble_ids_filter : Option (List Int)) : Except String (List RecordT) :=
  match boxcox_transform fit original_df.rows with
  | .error e => .error e
  | .ok (rows2, _lams) =>
    .ok (window_data { original_df with rows := rows2 } time_window
        VALUE_IF_UNDETECTED_BOXCOX weighted_average ble_ids_filter).1

/-- The `Prediction` namedtuple of src/classify.py line 145:
`(place, times, flag)`. -/
structure Prediction where
  place : String
  times : Nat
  flag : Bool
deriving DecidableEq, Repr

/-- The `prediction_dict` of src/classify.py line 146: an insertion-ordered
dict from ble_id to `Prediction`. -/
abbrev PredState := List (Int × Prediction)

/-- Dict lookup `prediction_dict[ble_id]`. -/
def lookupPred (i : Int) (s : PredState) : Option Prediction :=
  (s.find? (fun e => decide (e.1 = i))).map (fun e => e.2)

/-- Dict assignment `prediction_dict[ble_id] = p`: replace in place if the
key exists, append otherwise. -/
def setPred (i : Int) (p : Prediction) : PredState → PredState
  | [] => [(i, p)]
  | e :: rest => if e.1 = i then (i, p) :: rest else e :: setPred i p rest

/-- The flag reset at the top of each polling cycle
(src/classify.py lines 151-153). -/
def resetFlags (s : PredState) : PredState :=
  s.map (fun e => (e.1, { e.2 with flag := false }))

/-- The per-beacon update branch (src/classify.py lines 187-192): if the
beacon is known and the classified place matches the stored one, increment
the count capped at 3 and mark seen; otherwise store the new place with
count 1 and mark seen. -/
def classifyUpdate (s : PredState) (bleId : Int) (place : String) : PredState :=
  match lookupPred bleId s with
  | some pr =>
    if pr.place = place then
      setPred bleId { place := pr.place, times := min 3 (pr.times + 1), flag := true } s
    else
      setPred bleId { place := place, times := 1, flag := true } s
  | none => setPred bleId { place := place, times := 1, flag := true } s

/-- A persistence side effect of one polling cycle: the UPSERT of
`QUERY_FOR_UPSERT` or the DELETE of `QUERY_FOR_DELETE` (src/classify.py
lines 55-56). -/
inductive DBAction where
  | upsert (ble_id : Int) (place : String)
  | delete (ble_id : Int)
deriving DecidableEq, Repr

/-- The persistence block of src/classify.py lines 204-213: iterate the
entries in dict order; an entry that is seen and has count 3 issues an
upsert; an entry that is unseen issues a delete. -/
def persistActions (s : PredState) : List DBAction :=
  s.flatMap (fun e =>
    (if e.2.flag = true ∧ e.2.times = 3 then [DBAction.upsert e.1 e.2.place] else [])
      ++ (if e.2.flag = true then [] else [DBAction.delete e.1]))

/-- The `drop_ble_ids` cleanup of src/classify.py lines 213-215: every
unseen entry (exactly those just deleted from persisted state) is removed
from the local dict. -/
def persistPrune (s : PredState) : PredState :=
  s.filter (fun e => e.2.flag)

/-- One polling cycle of the `--update` loop of src/classify.py: reset all
seen flags, apply the classification results of this cycle in order (the
groupby over `label` yields each ble_id at most once), then run the
persistence block.  Returns the issued persistence actions and the state
for the next cycle. -/
def cycleStep (s : PredState) (classified : List (Int × String)) :
    List DBAction × PredState :=
  let s2 := classified.foldl (fun st c => classifyUpdate st c.1 c.2) (resetFlags s)
  (persistActions s2, persistPrune s2)

/-- Run the polling loop from a given state over a list of cycles, each
cycle given by its classification results. -/
def runFrom (s : PredState) : List (List (Int × String)) → List (List DBAction) × PredState
  | [] => ([], s)
  | c :: cs =>
    let r := cycleStep s c
    let rest := runFrom r.2 cs
    (r.1 :: rest.1, rest.2)

/-- Run the polling loop from the initial empty `prediction_dict`
(src/classify.py lines 146-147). -/
def runCycles (trace : List (List (Int × String))) : List (List DBAction) × PredState :=
  runFrom [] trace

/-- Eleven observations of one beacon sharing a single timestamp, the
detector `("8-303", "0")` reading listed first.  Together with `tieRowsB`
this witnesses that the order of tied timestamps is observable in the
window output (claim C5). -/
def tieRowsA : List Obs :=
  { label := "L", ble_id := 1, place := "8-303", detector := "0",
    timestamp := 1000, proxi := 99 }
    :: List.replicate 10
      { label := "L", ble_id := 1, place := "8-302", detector := "0",
        timestamp := 1000, proxi := 10 }

/-- The same multiset of observations as `tieRowsA`, with the
`("8-303", "0")` reading listed last. -/
def tieRowsB : List Obs :=
  List.replicate 10
    { label := "L", ble_id := 1, place := "8-302", detector := "0",
      timestamp := 1000, proxi := 10 }
    ++ [{ label := "L", ble_id := 1, place := "8-303", detector := "0",
          timestamp := 1000, proxi := 99 }]

/-- Timestamp-sortedness: the property that `sort_values("datetime")`
establishes about the row order, leaving the order of ties unspecified. -/
def sortedByTimestamp (rows : List Obs) : Prop :=
  List.Pairwise (fun a b => a.timestamp ≤ b.timestamp) rows

/-! ## General lemmas about the embedded collection operations -/

theorem insertSorted_perm (le : α → α → Bool) (a : α) (l : List α) :
    (insertSorted le a l).Perm (a :: l) := by
  induction l with
  | nil => simp [insertSorted]
  | cons b bs ih =>
    simp only [insertSorted]
    split
    · exact List.Perm.refl _
    · exact (ih.cons b).trans (List.Perm.swap a b bs)

theorem sortWith_perm (le : α → α → Bool) (l : List α) : (sortWith le l).Perm l := by
  induction l with
  | nil => simp [sortWith]
  | cons a as ih => exact (insertSorted_perm le a (sortWith le as)).trans (ih.cons a)

theorem mem_sortWith {le : α → α → Bool} {l : List α} {x : α} :
    x ∈ sortWith le l ↔ x ∈ l :=
  (sortWith_perm le l).mem_iff

theorem length_sortWith (le : α → α → Bool) (l : List α) :
    (sortWith le l).length = l.length :=
  (sortWith_perm le l).length_eq

theorem nodup_sortWith {le : α → α → Bool} {l : List α} (h : l.Nodup) :
    (sortWith le l).Nodup :=
  ((sortWith_perm le l).nodup_iff).mpr h

theorem mem_groupKeys {rows : List Obs} {k : String × String} :
    k ∈ groupKeys rows ↔ ∃ o ∈ rows, obsKey o = k := by
  simp [groupKeys, mem_sortWith, List.mem_dedup, List.mem_map]

theorem nodup_groupKeys (rows : List Obs) : (groupKeys rows).Nodup :=
  nodup_sortWith (List.nodup_dedup _)

theorem groupOf_eq_nil_iff {rows : List Obs} {k : String × String} :
    groupOf k rows = [] ↔ ∀ o ∈ rows, obsKey o ≠ k := by
  simp [groupOf, List.filter_eq_nil_iff]

theorem mem_of_mem_groupOf {rows : List Obs} {k : String × String} {o : Obs}
    (h : o ∈ groupOf k rows) : o ∈ rows :=
  (List.mem_filter.mp h).1

theorem obsKey_of_mem_groupOf {rows : List Obs} {k : String × String} {o : Obs}
    (h : o ∈ groupOf k rows) : obsKey o = k := by
  have := (List.mem_filter.mp h).2
  simpa using this

theorem dedup_eq_single {α} [DecidableEq α] {l : List α} {a : α}
    (hne : l ≠ []) (h : ∀ x ∈ l, x = a) : l.dedup = [a] := by
  induction l with
  | nil => exact absurd rfl hne
  | cons x xs ih =>
    have hx : x = a := h x (by simp)
    subst hx
    cases xs with
    | nil => simp
    | cons y ys =>
      have hy : y = x := h y (by simp)
      have hmem : x ∈ y :: ys := by
        rw [hy]
        exact List.mem_cons_self _ _
      rw [List.dedup_cons_of_mem hmem]
      exact ih (by simp) (fun z hz => h z (by simp [hz]))

theorem foldl_max_ge_init (l : List Obs) (a : Int) :
    a ≤ l.foldl (fun x r => max x r.timestamp) a := by
  induction l generalizing a with
  | nil => simp
  | cons r rs ih => exact le_trans (le_max_left a r.timestamp) (ih (max a r.timestamp))

theorem foldl_max_ge_mem {l : List Obs} {o : Obs} (h : o ∈ l) (a : Int) :
    o.timestamp ≤ l.foldl (fun x r => max x r.timestamp) a := by
  induction l generalizing a with
  | nil => cases h
  | cons r rs ih =>
    rcases List.mem_cons.mp h with h1 | h2
    · subst h1
      exact le_trans (le_max_right a o.timestamp) (foldl_max_ge_init rs _)
    · exact ih h2 _

theorem le_maxTimestamp {rows : List Obs} {o : Obs} (h : o ∈ rows) :
    o.timestamp ≤ maxTimestamp rows := by
  cases rows with
  | nil => cases h
  | cons r rs =>
    rcases List.mem_cons.mp h with h1 | h2
    · subst h1
      exact foldl_max_ge_init rs _
    · exact foldl_max_ge_mem h2 _

theorem foldl_max_le {l : List Obs} {B : Int} :
    ∀ {a : Int}, a ≤ B → (∀ o ∈ l, o.timestamp ≤ B) →
      l.foldl (fun x r => max x r.timestamp) a ≤ B := by
  induction l with
  | nil => intro a ha _; simpa using ha
  | cons r rs ih =>
    intro a ha h
    exact ih (max_le ha (h r (by simp))) (fun o ho => h o (by simp [ho]))

theorem maxTimestamp_le {rows : List Obs} (hne : rows ≠ []) {B : Int}
    (h : ∀ o ∈ rows, o.timestamp ≤ B) : maxTimestamp rows ≤ B := by
  cases rows with
  | nil => exact absurd rfl hne
  | cons r rs =>
    exact foldl_max_le (h r (by simp)) (fun o ho => h o (by simp [ho]))

theorem getField_setField_self (k : String × String) (v : ℚ) (l : Fields) :
    getField k (setField k v l) = some v := by
  induction l with
  | nil => simp [setField, getField]
  | cons kv rest ih =>
    by_cases h : kv.1 = k
    · simp [setField, h, getField]
    · simp only [setField, if_neg h]
      simpa [getField, List.find?_cons, h] using ih

theorem getField_setField_ne {d k : String × String} (v : ℚ) (l : Fields) (h : d ≠ k) :
    getField d (setField k v l) = getField d l := by
  have hkd : k ≠ d := Ne.symm h
  induction l with
  | nil => simp [setField, getField, hkd]
  | cons kv rest ih =>
    by_cases hk : kv.1 = k
    · have hkvd : kv.1 ≠ d := by rw [hk]; exact hkd
      simp [setField, hk, getField, List.find?_cons, hkd, hkvd]
    · by_cases hd : kv.1 = d
      · simp [setField, if_neg hk, getField, List.find?_cons, hd, h]
      · simp only [setField, if_neg hk]
        simpa [getField, List.find?_cons, hd] using ih

theorem map_fst_setField_of_mem {k : String × String} (v : ℚ) {l : Fields}
    (h : k ∈ l.map Prod.fst) : (setField k v l).map Prod.fst = l.map Prod.fst := by
  induction l with
  | nil => simp at h
  | cons kv rest ih =>
    by_cases hk : kv.1 = k
    · simp [setField, hk]
    · have h2 : k ∈ rest.map Prod.fst := by
        rw [List.map_cons] at h
        rcases List.mem_cons.mp h with h1 | h1
        · exact absurd h1.symm hk
        · exact h1
      simp [setField, hk, ih h2]

theorem getField_foldl_setField (f : (String × String) → ℚ) (d : String × String) :
    ∀ (ks : List (String × String)) (acc : Fields), ks.Nodup →
      getField d (ks.foldl (fun a k => setField k (f k) a) acc)
        = if d ∈ ks then some (f d) else getField d acc := by
  intro ks
  induction ks with
  | nil => intro acc _; simp
  | cons k ks ih =>
    intro acc hnd
    obtain ⟨hk, hnd2⟩ := List.nodup_cons.mp hnd
    simp only [List.foldl_cons]
    rw [ih _ hnd2]
    by_cases hd : d ∈ ks
    · rw [if_pos hd, if_pos (List.mem_cons.mpr (Or.inr hd))]
    · rw [if_neg hd]
      by_cases hdk : d = k
      · subst hdk
        rw [getField_setField_self, if_pos (List.mem_cons_self _ _)]
      · rw [getField_setField_ne _ _ hdk,
          if_neg (by simpa [hdk] using hd : d ∉ k :: ks)]

theorem map_fst_foldl_setField (f : (String × String) → ℚ) :
    ∀ (ks : List (String × String)) (acc : Fields),
      (∀ k ∈ ks, k ∈ acc.map Prod.fst) →
      (ks.foldl (fun a k => setField k (f k) a) acc).map Prod.fst = acc.map Prod.fst := by
  intro ks
  induction ks with
  | nil => intro acc _; rfl
  | cons k ks ih =>
    intro acc h
    simp only [List.foldl_cons]
    rw [ih _ ?_, map_fst_setField_of_mem _ (h k (by simp))]
    intro k2 hk2
    rw [map_fst_setField_of_mem _ (h k (by simp))]
    exact h k2 (by simp [hk2])

theorem getField_map_fun (g : (String × String) → ℚ) {d : String × String} :
    ∀ {l : List (String × String)}, d ∈ l →
      getField d (l.map (fun k => (k, g k))) = some (g d) := by
  intro l
  induction l with
  | nil => intro h; cases h
  | cons k ks ih =>
    intro h
    by_cases hk : k = d
    · subst hk
      simp [getField]
    · have h2 : d ∈ ks := by
        rcases List.mem_cons.mp h with h1 | h1
        · exact absurd h1.symm hk
        · exact h1
      simpa [getField, List.find?_cons, hk] using ih h2

/-! ## Lemmas about the debounce state machine of src/classify.py -/

theorem mem_setPred {i : Int} {p : Prediction} {e : Int × Prediction} :
    ∀ {s : PredState}, e ∈ setPred i p s → e = (i, p) ∨ e ∈ s := by
  intro s
  induction s with
  | nil =>
    intro h
    simp only [setPred] at h
    exact Or.inl (by simpa using h)
  | cons f rest ih =>
    intro h
    by_cases hf : f.1 = i
    · rw [setPred, if_pos hf] at h
      rcases List.mem_cons.mp h with h1 | h1
      · exact Or.inl h1
      · exact Or.inr (List.mem_cons.mpr (Or.inr h1))
    · rw [setPred, if_neg hf] at h
      rcases List.mem_cons.mp h with h1 | h1
      · exact Or.inr (List.mem_cons.mpr (Or.inl h1))
      · rcases ih h1 with h2 | h2
        · exact Or.inl h2
        · exact Or.inr (List.mem_cons.mpr (Or.inr h2))

theorem times_bounds_classifyUpdate {s : PredState}
    (hs : ∀ e ∈ s, 1 ≤ e.2.times ∧ e.2.times ≤ 3) (i : Int) (pl : String) :
    ∀ e ∈ classifyUpdate s i pl, 1 ≤ e.2.times ∧ e.2.times ≤ 3 := by
  intro e he
  cases hl : lookupPred i s with
  | none =>
    simp only [classifyUpdate, hl] at he
    rcases mem_setPred he with h1 | h1
    · subst h1
      exact ⟨le_refl 1, by norm_num⟩
    · exact hs e h1
  | some pr =>
    simp only [classifyUpdate, hl] at he
    by_cases hp : pr.place = pl
    · rw [if_pos hp] at he
      rcases mem_setPred he with h1 | h1
      · subst h1
        constructor
        · show 1 ≤ min 3 (pr.times + 1)
          omega
        · show min 3 (pr.times + 1) ≤ 3
          omega
      · exact hs e h1
    · rw [if_neg hp] at he
      rcases mem_setPred he with h1 | h1
      · subst h1
        exact ⟨le_refl 1, by norm_num⟩
      · exact hs e h1

theorem times_bounds_fold (cl : List (Int × String)) :
    ∀ (st : PredState), (∀ e ∈ st, 1 ≤ e.2.times ∧ e.2.times ≤ 3) →
      ∀ e ∈ cl.foldl (fun st c => classifyUpdate st c.1 c.2) st,
        1 ≤ e.2.times ∧ e.2.times ≤ 3 := by
  induction cl with
  | nil => intro st h; simpa using h
  | cons c cs ih =>
    intro st h
    exact ih _ (times_bounds_classifyUpdate h c.1 c.2)

theorem times_bounds_cycleStep {s : PredState}
    (hs : ∀ e ∈ s, 1 ≤ e.2.times ∧ e.2.times ≤ 3) (c : List (Int × String)) :
    ∀ e ∈ (cycleStep s c).2, 1 ≤ e.2.times ∧ e.2.times ≤ 3 := by
  intro e he
  have he2 : e ∈ List.foldl (fun st c => classifyUpdate st c.1 c.2) (resetFlags s) c
      ∧ e.2.flag = true := by
    simpa [cycleStep, persistPrune, List.mem_filter] using he
  refine times_bounds_fold c (resetFlags s) ?_ e he2.1
  intro f hf
  obtain ⟨g, hg, rfl⟩ := List.mem_map.mp hf
  exact hs g hg

theorem times_bounds_runFrom (trace : List (List (Int × String))) :
    ∀ (s : PredState), (∀ e ∈ s, 1 ≤ e.2.times ∧ e.2.times ≤ 3) →
      ∀ e ∈ (runFrom s trace).2, 1 ≤ e.2.times ∧ e.2.times ≤ 3 := by
  induction trace with
  | nil => intro s h; simpa [runFrom] using h
  | cons c cs ih =>
    intro s h
    intro e he
    have he2 : e ∈ (runFrom (cycleStep s c).2 cs).2 := by
      simpa [runFrom] using he
    exact ih _ (times_bounds_cycleStep h c) e he2

/-! ## Claim theorems for the debounce / persistence policy -/

/-- Claim C7: a beacon classified as place "A" for 2 consecutive polling
cycles and then as place "B" for 3 consecutive cycles ends with "B" upserted
to persisted state, and "A" is never upserted in any cycle: the differing
classification in cycle 3 resets the count to 1 and replaces the stored
place, and the upsert fires only when the count reaches 3 (here in
cycle 5, for "B"). -/
theorem debounce_two_A_then_three_B :
    (runCycles [[(7, "A")], [(7, "A")], [(7, "B")], [(7, "B")], [(7, "B")]]).1
        = [[], [], [], [], [DBAction.upsert 7 "B"]]
      ∧ ∀ acts ∈ (runCycles [[(7, "A")], [(7, "A")], [(7, "B")], [(7, "B")], [(7, "B")]]).1,
          DBAction.upsert 7 "A" ∉ acts := by
  constructor
  · decide
  · decide

/-- Claim C8, counterexample: a beacon reporting the same place for 4
consecutive cycles triggers the upsert in cycle 3 (when the count first
reaches 3) and AGAIN in cycle 4, because the count is capped at 3 and the
persistence condition `prediction.flag and prediction.times == 3`
(src/classify.py line 205) holds in every later cycle as well; the claim
states the upsert is "not again" issued in later cycles. -/
theorem upsert_refires_after_confirmation :
    (runCycles [[(7, "A")], [(7, "A")], [(7, "A")], [(7, "A")]]).1
      = [[], [], [DBAction.upsert 7 "A"], [DBAction.upsert 7 "A"]] := by
  decide

/-- Claim C8, amended: the persistence upsert of `(beacon_id, place)` is
issued in exactly those cycles in which, after this cycle's updates, the
beacon's entry is marked seen and its consecutive count equals 3 — so it
first fires at the transition to CONFIRMED and keeps firing in every later
cycle while the beacon keeps reporting the same place (the count staying
capped at 3). -/
theorem upsert_iff_seen_count_three (s : PredState) (i : Int) (pl : String) :
    DBAction.upsert i pl ∈ persistActions s
      ↔ ∃ p : Prediction, (i, p) ∈ s ∧ p.flag = true ∧ p.times = 3 ∧ p.place = pl := by
  unfold persistActions
  rw [List.mem_flatMap]
  constructor
  · rintro ⟨⟨a, b⟩, he, hmem⟩
    rw [List.mem_append] at hmem
    rcases hmem with hmem | hmem
    · by_cases hc : b.flag = true ∧ b.times = 3
      · rw [if_pos hc] at hmem
        simp only [List.mem_singleton, DBAction.upsert.injEq] at hmem
        obtain ⟨h1, h2⟩ := hmem
        subst h1
        exact ⟨b, he, hc.1, hc.2, h2.symm⟩
      · rw [if_neg hc] at hmem
        cases hmem
    · by_cases hf : b.flag = true
      · rw [if_pos hf] at hmem
        cases hmem
      · rw [if_neg hf] at hmem
        simp at hmem
  · rintro ⟨p, hp, hf, ht, hpl⟩
    refine ⟨(i, p), hp, ?_⟩
    rw [List.mem_append]
    left
    rw [if_pos ⟨hf, ht⟩]
    simp [hpl]

/-- Claim C9: a beacon classified in cycle 1 and silent from cycle 2 on is
deleted from persisted state exactly once — the delete is issued in cycle 2
(the first cycle in which its seen flag stays false), the entry is removed
from the local prediction state, and cycle 3 issues no further action. -/
theorem eviction_exactly_once :
    (runCycles [[(7, "A")], [], []]).1 = [[], [DBAction.delete 7], []]
      ∧ (runCycles [[(7, "A")], [], []]).2 = [] := by
  constructor
  · decide
  · decide

/-- Claim C10: in every state reachable by the polling loop from the empty
initial `prediction_dict`, every entry's consecutive count lies in {1, 2, 3}:
entries are only created with count 1, only updated to `min 3 (count + 1)`,
and otherwise removed entirely. -/
theorem prediction_times_in_range (trace : List (List (Int × String)))
    (i : Int) (p : Prediction) (h : (i, p) ∈ (runCycles trace).2) :
    1 ≤ p.times ∧ p.times ≤ 3 :=
  times_bounds_runFrom trace [] (by simp) (i, p) h

/-- Concrete instantiation of `prediction_times_in_range`: after one cycle
classifying beacon 7 at "A", the state holds the entry (7, ("A", 1, seen))
and its count is within bounds. -/
theorem prediction_times_in_range_witness :
    (7, ({ place := "A", times := 1, flag := true } : Prediction))
        ∈ (runCycles [[(7, "A")]]).2
      ∧ 1 ≤ ({ place := "A", times := 1, flag := true } : Prediction).times
      ∧ ({ place := "A", times := 1, flag := true } : Prediction).times ≤ 3 := by
  refine ⟨by decide, ?_, ?_⟩
  · exact (prediction_times_in_range [[(7, "A")]] 7 _ (by decide)).1
  · exact (prediction_times_in_range [[(7, "A")]] 7 _ (by decide)).2

/-! ## Claim theorems for `window_data` purity and input mutation -/

/-- Claim C4, counterexample: `window_data` does modify its input
observation dataframe — line 123 of src/window.py assigns the derived
`datetime` column on the caller's object, so after the call the input frame
differs from what was passed in. -/
theorem window_data_mutates_input :
    (window_data { rows := [], hasDatetimeCol := false } 30 300 false none).2
      ≠ { rows := [], hasDatetimeCol := false } := by
  decide

/-- Claim C4, amended: `window_data` is deterministic and has no hidden
state — its record output is a function of the observation rows and the
explicit arguments alone — but it does mutate its input dataframe, exactly
by installing the derived `datetime` column; the observation rows themselves
are left unchanged. -/
theorem window_data_deterministic_and_mutation :
    ∀ (frame : ObsFrame) (tw : Int) (vu : ℚ) (wa : Bool) (fl : Option (List Int)),
      window_data frame tw vu wa fl
        = (window_data_rows tw vu wa fl frame.rows,
           { rows := frame.rows, hasDatetimeCol := true }) :=
  fun _ _ _ _ _ => rfl

/-! ## Claim theorems for the aggregator output length -/

theorem length_windowedGroup (tw : Int) (vu : ℚ) (wa : Bool) (label : String)
    (bleId : Int) (rows : List Obs) :
    (windowedGroup tw vu wa label bleId rows).length
      = rows.length - DETECTORS.length := by
  simp [windowedGroup]

theorem groupPairs_single {rows : List Obs} {label : String} {bleId : Int}
    (hne : rows ≠ []) (h : ∀ o ∈ rows, o.label = label ∧ o.ble_id = bleId) :
    groupPairs rows = [(label, bleId)] := by
  unfold groupPairs
  have hmap : ∀ x ∈ rows.map (fun o => (o.label, o.ble_id)), x = (label, bleId) := by
    intro x hx
    obtain ⟨o, ho, rfl⟩ := List.mem_map.mp hx
    have := h o ho
    simp [this.1, this.2]
  rw [dedup_eq_single (by simpa using hne) hmap]
  rfl

theorem rowsOf_eq_self {rows : List Obs} {label : String} {bleId : Int}
    (h : ∀ o ∈ rows, o.label = label ∧ o.ble_id = bleId) :
    rowsOf label bleId rows = rows := by
  unfold rowsOf
  rw [List.filter_eq_self]
  intro o ho
  simpa using h o ho

/-- Claim C1: for an input that consists of a single `(label, ble_id)` group
of n observations (and no ble_ids filter), `window_data` emits exactly
`max 0 (n - |DETECTORS|)` feature records: all n rolling windows are formed
but the first `|DETECTORS|` are skipped as warm-up, so n < 9 observations
yield empty output (not an error) and n ≥ 9 yield exactly n - 9 records,
one per remaining observation index of the timestamp-sorted sequence. -/
theorem window_data_output_length (frame : ObsFrame) (tw : Int) (vu : ℚ)
    (wa : Bool) (label : String) (bleId : Int)
    (h : ∀ o ∈ frame.rows, o.label = label ∧ o.ble_id = bleId) :
    ((window_data frame tw vu wa none).1.length : Int)
      = max 0 ((frame.rows.length : Int) - (DETECTORS.length : Int)) := by
  have hlen : (window_data frame tw vu wa none).1.length
      = frame.rows.length - DETECTORS.length := by
    show (window_data_rows tw vu wa none frame.rows).length = _
    by_cases hne : frame.rows = []
    · rw [hne]
      rfl
    · unfold window_data_rows
      rw [groupPairs_single hne h]
      simp only [List.foldl_cons, List.foldl_nil, keepBle, if_pos]
      rw [List.nil_append, length_windowedGroup, rowsOf_eq_self h, sortObs,
        length_sortWith]
  rw [hlen]
  omega

/-- Concrete instantiation of `window_data_output_length`: a single-beacon
frame with one observation (fewer than the 9 catalog entries) yields empty
output, length `max 0 (1 - 9) = 0`. -/
theorem window_data_output_length_witness :
    ((window_data
        { rows := [{ label := "L", ble_id := 1, place := "8-302", detector := "0",
                     timestamp := 0, proxi := 50 }],
          hasDatetimeCol := false } 30 300 false none).1.length : Int)
      = max 0 (((1 : Nat) : Int) - (DETECTORS.length : Int)) :=
  window_data_output_length _ 30 300 false "L" 1 (by decide)

/-! ## Claim theorems for the weighted-mean / simple-mean equivalence -/

theorem weightedMean_eq_simpleMean {tw : Int} {g : List Obs}
    (h : ∀ o ∈ g, obsWeight tw (maxTimestamp g) o.timestamp = 1) :
    weightedMean tw g = simpleMean g := by
  unfold weightedMean simpleMean
  have h1 : g.map (fun o => o.proxi * obsWeight tw (maxTimestamp g) o.timestamp)
      = g.map (fun o => o.proxi) :=
    List.map_congr_left (fun o ho => by rw [h o ho, mul_one])
  have h2 : g.map (fun o => obsWeight tw (maxTimestamp g) o.timestamp)
      = g.map (fun _ => (1 : ℚ)) :=
    List.map_congr_left (fun o ho => h o ho)
  rw [h1, h2]
  congr 1
  rw [List.map_const', List.sum_replicate, nsmul_eq_mul, mul_one]

theorem foldl_setField_congr (f g : (String × String) → ℚ) :
    ∀ (ks : List (String × String)) (acc : Fields),
      (∀ k ∈ ks, f k = g k) →
      ks.foldl (fun a k => setField k (f k) a) acc
        = ks.foldl (fun a k => setField k (g k) a) acc := by
  intro ks
  induction ks with
  | nil => intro acc _; rfl
  | cons k ks ih =>
    intro acc h
    simp only [List.foldl_cons]
    rw [h k (by simp)]
    exact ih _ (fun k2 hk2 => h k2 (by simp [hk2]))

/-- Claim C3: when every observation of a window lies within `time_window/2`
of the window's latest timestamp, the record built with
`weighted_average=True` equals the record built with `weighted_average=False`:
each group's latest timestamp is at most the window's latest, so every
weight is 1 and the weighted average collapses to the arithmetic mean. -/
theorem create_record_weighted_eq_unweighted (windowed : List Obs)
    (label : String) (bleId : Int) (tw : Int) (vu : ℚ)
    (h : ∀ o ∈ windowed,
        ((maxTimestamp windowed - o.timestamp : Int) : ℚ) ≤ (tw : ℚ) / 2) :
    create_record windowed label bleId tw vu true
      = create_record windowed label bleId tw vu false := by
  unfold create_record
  have hfields : createFields true tw vu windowed = createFields false tw vu windowed := by
    unfold createFields
    apply foldl_setField_congr
    intro k hk
    show aggregate true tw (groupOf k windowed) = aggregate false tw (groupOf k windowed)
    unfold aggregate
    rw [if_pos rfl, if_neg (by simp)]
    apply weightedMean_eq_simpleMean
    intro o ho
    have how : o ∈ windowed := mem_of_mem_groupOf ho
    have hg_ne : groupOf k windowed ≠ [] := by
      intro hnil
      rw [hnil] at ho
      cases ho
    have hmax : maxTimestamp (groupOf k windowed) ≤ maxTimestamp windowed :=
      maxTimestamp_le hg_ne (fun x hx => le_maxTimestamp (mem_of_mem_groupOf hx))
    unfold obsWeight
    rw [if_pos]
    calc ((maxTimestamp (groupOf k windowed) - o.timestamp : Int) : ℚ)
        ≤ ((maxTimestamp windowed - o.timestamp : Int) : ℚ) := by
          exact_mod_cast sub_le_sub_right hmax _
      _ ≤ (tw : ℚ) / 2 := h o how
  rw [hfields]

/-- Concrete instantiation of `create_record_weighted_eq_unweighted`: a
window of two observations 10 seconds apart, with `time_window = 30`; both
lie within 15 seconds of the window's latest timestamp, and the weighted
record equals the unweighted one. -/
theorem create_record_weighted_eq_unweighted_witness :
    create_record
        [{ label := "L", ble_id := 1, place := "8-302", detector := "0",
           timestamp := 100, proxi := 50 },
         { label := "L", ble_id := 1, place := "8-302", detector := "0",
           timestamp := 110, proxi := 60 }] "L" 1 30 300 true
      = create_record
        [{ label := "L", ble_id := 1, place := "8-302", detector := "0",
           timestamp := 100, proxi := 50 },
         { label := "L", ble_id := 1, place := "8-302", detector := "0",
           timestamp := 110, proxi := 60 }] "L" 1 30 300 false := by
  apply create_record_weighted_eq_unweighted
  intro o ho
  have hmax : maxTimestamp
      [{ label := "L", ble_id := 1, place := "8-302", detector := "0",
         timestamp := 100, proxi := 50 },
       { label := "L", ble_id := 1, place := "8-302", detector := "0",
         timestamp := 110, proxi := 60 }] = 110 := by decide
  rw [hmax]
  rcases List.mem_cons.mp ho with h1 | h1
  · rw [h1]
    norm_num
  · rcases List.mem_cons.mp h1 with h2 | h2
    · rw [h2]
      norm_num
    · cases h2

/-! ## Claim theorems for the record field layout and the sentinel value -/

/-- Claim C2, counterexample: a window containing an observation whose
`(place, detector)` pair is outside the catalog makes `create_record` emit a
record with MORE than `|DETECTORS|` proximity fields — the groupby loop of
src/window.py lines 110-111 executes `record[f"{place}-{detector}"] = ...`
for every group present in the window, which for a non-catalog key adds a
new dict entry instead of overwriting a catalog one. -/
theorem create_record_extra_detector :
    (create_record
        [{ label := "L", ble_id := 1, place := "X", detector := "9",
           timestamp := 0, proxi := 5 }] "L" 1 30 300 false).fields.length
      ≠ DETECTORS.length := by
  decide

/-- Claim C2, amended: provided every observation of the window reports a
catalog `(place, detector)` pair, the record built by `create_record` has
exactly `|DETECTORS|` proximity fields, one per catalog entry in catalog
order; a catalog entry with no matching observation carries exactly the
configured sentinel `value_if_undetected` (300 untransformed, 10 after
Box-Cox — in particular a fixed nonzero number, never NaN), and every other
entry carries the aggregate of its group's proximity values.  (Without the
proviso the record additionally contains one field per non-catalog group
present in the window, see `create_record_extra_detector`.) -/
theorem create_record_fields_spec (windowed : List Obs) (label : String)
    (bleId : Int) (tw : Int) (vu : ℚ) (wa : Bool)
    (hcat : ∀ o ∈ windowed, obsKey o ∈ DETECTORS) :
    ((create_record windowed label bleId tw vu wa).fields.map Prod.fst = DETECTORS)
      ∧ ∀ d ∈ DETECTORS,
          getField d (create_record windowed label bleId tw vu wa).fields
            = some (if groupOf d windowed = []
                then vu else aggregate wa tw (groupOf d windowed)) := by
  constructor
  · show (createFields wa tw vu windowed).map Prod.fst = DETECTORS
    unfold createFields
    rw [map_fst_foldl_setField]
    · simp [Function.comp_def]
    · intro k hk
      obtain ⟨o, ho, rfl⟩ := mem_groupKeys.mp hk
      have : obsKey o ∈ DETECTORS := hcat o ho
      simpa using this
  · intro d hd
    show getField d (createFields wa tw vu windowed) = _
    unfold createFields
    rw [getField_foldl_setField _ _ _ _ (nodup_groupKeys windowed)]
    by_cases hmem : d ∈ groupKeys windowed
    · have hne : ¬ groupOf d windowed = [] := by
        obtain ⟨o, ho, hko⟩ := mem_groupKeys.mp hmem
        intro hnil
        exact (groupOf_eq_nil_iff.mp hnil) o ho hko
      rw [if_pos hmem, if_neg hne]
    · have hnil : groupOf d windowed = [] := by
        rw [groupOf_eq_nil_iff]
        intro o ho hko
        exact hmem (mem_groupKeys.mpr ⟨o, ho, hko⟩)
      rw [if_neg hmem, if_pos hnil, getField_map_fun _ hd]

/-- Concrete instantiation of `create_record_fields_spec`: a window with a
single catalog-detector observation yields a record whose keys are exactly
the catalog in order, and whose `("8-303", "0")` entry (no observation) is
exactly the sentinel 300. -/
theorem create_record_fields_spec_witness :
    ((create_record
        [{ label := "L", ble_id := 1, place := "8-302", detector := "0",
           timestamp := 0, proxi := 50 }] "L" 1 30 300 false).fields.map Prod.fst
      = DETECTORS)
    ∧ getField ("8-303", "0")
        (create_record
          [{ label := "L", ble_id := 1, place := "8-302", detector := "0",
             timestamp := 0, proxi := 50 }] "L" 1 30 300 false).fields
      = some (if groupOf ("8-303", "0")
            [{ label := "L", ble_id := 1, place := "8-302", detector := "0",
               timestamp := 0, proxi := 50 }] = []
          then (300 : ℚ)
          else aggregate false 30 (groupOf ("8-303", "0")
            [{ label := "L", ble_id := 1, place := "8-302", detector := "0",
               timestamp := 0, proxi := 50 }])) := by
  constructor
  · exact (create_record_fields_spec _ "L" 1 30 300 false (by decide)).1
  · exact (create_record_fields_spec _ "L" 1 30 300 false (by decide)).2
      ("8-303", "0") (by decide)

/-! ## Claim theorems for Box-Cox precondition failures -/

theorem groupProxis_writeBack_ne {k k2 : String × String} (h : k ≠ k2) :
    ∀ (ys : List ℚ) (rows : List Obs),
      groupProxis k (writeBack k2 ys rows) = groupProxis k rows := by
  intro ys rows
  induction rows generalizing ys with
  | nil => rfl
  | cons r rs ih =>
    by_cases hr : obsKey r = k2
    · have hrk : ¬ obsKey r = k := by
        rw [hr]
        exact Ne.symm h
      cases ys with
      | nil =>
        simp only [writeBack, if_pos hr]
        simp [groupProxis, groupOf, List.filter_cons, hrk]
        exact ih []
      | cons y yt =>
        simp only [writeBack, if_pos hr]
        have hrk2 : ¬ obsKey ({ r with proxi := y } : Obs) = k := hrk
        simp [groupProxis, groupOf, List.filter_cons, hrk, hrk2]
        exact ih yt
    · simp only [writeBack, if_neg hr]
      by_cases hk : obsKey r = k
      · simp [groupProxis, groupOf, List.filter_cons, hk]
        exact ih ys
      · simp [groupProxis, groupOf, List.filter_cons, hk]
        exact ih ys

theorem scipyBoxcox_error_of_bad (fit : List ℚ → List ℚ × ℚ) (xs : List ℚ)
    (hne : xs ≠ [])
    (hbad : xs.countP (fun x => decide (0 < x)) < 2 ∨ ∃ x ∈ xs, x ≤ 0) :
    ∃ e, scipyBoxcox fit xs = Except.error e := by
  have hlen : ¬ xs.length = 0 := by
    simpa [List.length_eq_zero] using hne
  by_cases hp : ∃ x ∈ xs, x ≤ 0
  · obtain ⟨x, hx, hle⟩ := hp
    have hany : xs.any (fun x => decide (x ≤ 0)) = true :=
      List.any_eq_true.mpr ⟨x, hx, by simpa using hle⟩
    exact ⟨"Data must be positive.", by simp [scipyBoxcox, hlen, hany]⟩
  · rcases hbad with hcount | hp2
    · have hpos : ∀ x ∈ xs, 0 < x := by
        intro x hx
        by_contra hc
        exact hp ⟨x, hx, le_of_not_lt hc⟩
      have hcp : xs.countP (fun x => decide (0 < x)) = xs.length :=
        List.countP_eq_length.mpr (fun a ha => by simpa using hpos a ha)
      have hlen2 : xs.length < 2 := by omega
      obtain ⟨x, hxs⟩ : ∃ x, xs = [x] := by
        cases xs with
        | nil => exact absurd rfl hne
        | cons a l =>
          cases l with
          | nil => exact ⟨a, rfl⟩
          | cons b m => simp at hlen2; omega
      subst hxs
      have hany : ([x].any (fun v => decide (v ≤ 0))) = false := by
        simp [not_le.mpr (hpos x (by simp))]
      have hconst : allSameValue [x] = true := by simp [allSameValue]
      exact ⟨"Data must not be constant.", by simp [scipyBoxcox, hlen, hany, hconst]⟩
    · exact absurd hp2 hp

theorem transformGroups_error (fit : List ℚ → List ℚ × ℚ) (k : String × String) :
    ∀ (ks : List (String × String)) (rows : List Obs), ks.Nodup → k ∈ ks →
      groupProxis k rows ≠ [] →
      ((groupProxis k rows).countP (fun x => decide (0 < x)) < 2
        ∨ ∃ x ∈ groupProxis k rows, x ≤ 0) →
      ∃ e, transformGroups fit ks rows = Except.error e := by
  intro ks
  induction ks with
  | nil =>
    intro rows _ hk
    cases hk
  | cons k1 ks ih =>
    intro rows hnd hk hne hbad
    by_cases hk1 : k = k1
    · subst hk1
      obtain ⟨e, he⟩ := scipyBoxcox_error_of_bad fit _ hne hbad
      exact ⟨e, by simp [transformGroups, he]⟩
    · have hkks : k ∈ ks := by
        rcases List.mem_cons.mp hk with h1 | h1
        · exact absurd h1 hk1
        · exact h1
      cases hsb : scipyBoxcox fit (groupProxis k1 rows) with
      | error e => exact ⟨e, by simp [transformGroups, hsb]⟩
      | ok v =>
        obtain ⟨ys, lam⟩ := v
        have hpres : groupProxis k (writeBack k1 ys rows) = groupProxis k rows :=
          groupProxis_writeBack_ne hk1 ys rows
        obtain ⟨e, he⟩ := ih (writeBack k1 ys rows) (List.nodup_cons.mp hnd).2 hkks
          (by rw [hpres]; exact hne) (by rw [hpres]; exact hbad)
        exact ⟨e, by simp [transformGroups, hsb, he]⟩

/-- Claim C6: when the Box-Cox transform is requested, the pipeline of
src/window.py applies `boxcox_transform` to the raw proximity values,
grouped by `(place, detector)` over the entire dataset, before any
windowing (`window_main_boxcox` runs `boxcox_transform` first and only
windows its result), and it propagates an error — aborting the batch before
any record is produced — whenever some group has fewer than 2 positive
proximity values or contains a non-positive proximity value: scipy raises
ValueError on non-positive data, and a nonempty all-positive group with
fewer than 2 positive values is a single value, i.e. constant data, on
which scipy also raises ValueError. -/
theorem boxcox_bad_group_aborts (fit : List ℚ → List ℚ × ℚ) (frame : ObsFrame)
    (tw : Int) (wa : Bool) (fl : Option (List Int)) (k : String × String)
    (hk : k ∈ groupKeys frame.rows)
    (hbad : (groupProxis k frame.rows).countP (fun x => decide (0 < x)) < 2
        ∨ ∃ x ∈ groupProxis k frame.rows, x ≤ 0) :
    ∃ e, window_main_boxcox fit frame tw wa fl = Except.error e := by
  have hne : groupProxis k frame.rows ≠ [] := by
    obtain ⟨o, ho, hko⟩ := mem_groupKeys.mp hk
    intro hnil
    have hg : groupOf k frame.rows = [] := by
      have := congrArg List.length hnil
      simpa [groupProxis, List.length_eq_zero] using this
    exact (groupOf_eq_nil_iff.mp hg) o ho hko
  obtain ⟨e, he⟩ := transformGroups_error fit k (groupKeys frame.rows) frame.rows
    (nodup_groupKeys _) hk hne hbad
  exact ⟨e, by simp [window_main_boxcox, boxcox_transform, he]⟩

/-- Concrete instantiation of `boxcox_bad_group_aborts`: a dataset whose
single `("8-302", "0")` group contains the non-positive proximity value -1
makes the Box-Cox pipeline abort with an error before any windowing. -/
theorem boxcox_bad_group_aborts_witness :
    ∃ e, window_main_boxcox (fun xs => (xs, 0))
        { rows := [{ label := "L", ble_id := 1, place := "8-302", detector := "0",
                     timestamp := 0, proxi := -1 }],
          hasDatetimeCol := false } 30 false none = Except.error e :=
  boxcox_bad_group_aborts (fun xs => (xs, 0)) _ 30 false none ("8-302", "0")
    (by decide)
    (Or.inr ⟨-1, by decide, by norm_num⟩)

/-! ## Claim C5: the window output depends on the order of tied timestamps -/

/-- Claim C5, tie-order dependence: `tieRowsA` and `tieRowsB` hold the same
multiset of observations and both are sorted by timestamp (all timestamps
are equal, so both are valid results of sorting the same input by
timestamp), yet the per-beacon window loop produces different outputs on
them.  Hence the records emitted by `window_data` depend on the order in
which a sort places tied timestamps; pandas `sort_values` is called with
the default quicksort kind, which pandas documents as not stable, so the
code does not implement the claimed "ties broken by input order"
behaviour. -/
theorem tie_order_observable :
    tieRowsA.Perm tieRowsB ∧ sortedByTimestamp tieRowsA ∧ sortedByTimestamp tieRowsB
      ∧ windowedGroup 30 300 false "L" 1 tieRowsA
          ≠ windowedGroup 30 300 false "L" 1 tieRowsB := by
  refine ⟨?_, ?_, ?_, fun h => ?_⟩
  · unfold tieRowsA tieRowsB
    exact (List.perm_append_singleton _ _).symm
  · unfold sortedByTimestamp
    decide
  · unfold sortedByTimestamp
    decide
  · have hA : (windowedGroup 30 300 false "L" 1 tieRowsA).head?
        = some (alignToHeader (create_record (windowEnding 30 (tieRowsA.take 10))
            "L" 1 30 300 false)) := by
      unfold windowedGroup
      rw [show (List.range tieRowsA.length).drop DETECTORS.length = [9, 10] from by decide]
      rfl
    have hB : (windowedGroup 30 300 false "L" 1 tieRowsB).head?
        = some (alignToHeader (create_record (windowEnding 30 (tieRowsB.take 10))
            "L" 1 30 300 false)) := by
      unfold windowedGroup
      rw [show (List.range tieRowsB.length).drop DETECTORS.length = [9, 10] from by decide]
      rfl
    have hkey : (("8-303", "0") : String × String) ∈ DETECTORS := by decide
    have halign : ∀ (r : RecordT), getField ("8-303", "0") (alignToHeader r).fields
        = some ((getField ("8-303", "0") r.fields).getD 0) := by
      intro r
      exact getField_map_fun (fun d => (getField d r.fields).getD 0) hkey
    have hrawA : getField ("8-303", "0")
        (create_record (windowEnding 30 (tieRowsA.take 10)) "L" 1 30 300 false).fields
        = some (99 : ℚ) := by
      rw [(create_record_fields_spec (windowEnding 30 (tieRowsA.take 10))
        "L" 1 30 300 false (by decide)).2 ("8-303", "0") hkey]
      rw [show groupOf ("8-303", "0") (windowEnding 30 (tieRowsA.take 10))
          = [{ label := "L", ble_id := 1, place := "8-303", detector := "0",
               timestamp := 1000, proxi := 99 }] from by decide]
      rw [if_neg (by simp)]
      norm_num [aggregate, simpleMean]
    have hrawB : getField ("8-303", "0")
        (create_record (windowEnding 30 (tieRowsB.take 10)) "L" 1 30 300 false).fields
        = some (300 : ℚ) := by
      rw [(create_record_fields_spec (windowEnding 30 (tieRowsB.take 10))
        "L" 1 30 300 false (by decide)).2 ("8-303", "0") hkey]
      rw [show groupOf ("8-303", "0") (windowEnding 30 (tieRowsB.take 10))
          = [] from by decide]
      rw [if_pos rfl]
    have hvalA : (windowedGroup 30 300 false "L" 1 tieRowsA).head?.map
        (fun r => getField ("8-303", "0") r.fields) = some (some (99 : ℚ)) := by
      rw [hA, Option.map_some', halign, hrawA]
      rfl
    have hvalB : (windowedGroup 30 300 false "L" 1 tieRowsB).head?.map
        (fun r => getField ("8-303", "0") r.fields) = some (some (300 : ℚ)) := by
      rw [hB, Option.map_some', halign, hrawB]
      rfl
    have hc : (some (some (99 : ℚ)) : Option (Option ℚ)) = some (some 300) := by
      rw [← hvalA, ← hvalB, h]
    simp at hc
